import Mathlib

/-!
Formal model of the perplexity-clone search pipeline.

This file gives a shallow embedding of the core RAG pipeline of the
repository: query decomposition (`src/backend/src/search/langchain_client.py`),
multi-query search orchestration, content collation
(`src/backend/src/search/content_collator.py`), content extraction
(`src/backend/src/services/content_extractor.py`), answer synthesis
(`src/backend/src/search/answer_synthesizer.py`) and the top-level
`/api/v1/search` endpoint (`src/backend/src/api/v1/endpoints.py`).

Python strings are modelled as `List Char`; fallible external calls
(language model, web search, HTTP fetch) are modelled as `Except`-valued
oracles supplied as parameters, and each `try/except` of the source is an
explicit `match` on such a value.  Booleans returned next to results record
whether the external capability was actually consulted.
-/

/-- Python `str` values are modelled as lists of characters. -/
abbrev PyStr := List Char

/-- Whitespace characters removed by Python `str.strip()` (ASCII subset). -/
def isPySpace (c : Char) : Bool :=
  c = ' ' || c = '\t' || c = '\n' || c = '\r' || c = '\x0b' || c = '\x0c'

/-- Python `s.strip()`: remove leading and trailing whitespace. -/
def pyStrip (s : PyStr) : PyStr :=
  ((s.dropWhile isPySpace).reverse.dropWhile isPySpace).reverse

/-- Python `s.lstrip(chars)`: drop the longest leading run of characters
belonging to the set `p`. -/
def pyLStrip (p : Char → Bool) (s : PyStr) : PyStr :=
  s.dropWhile p

/-- Python `s.lower()` (character-wise lowering). -/
def pyLower (s : PyStr) : PyStr :=
  s.map Char.toLower

/-- Character set of the literal `"-â€¢*0123456789. "` passed to `lstrip` in
`LangChainClient.parse_decomposition_output`
(`src/backend/src/search/langchain_client.py`, line 281).  The file's bytes
hold the three characters U+00E2, U+20AC, U+00A2 (the UTF-8 mojibake
rendering `â€¢` of the bullet `•`), not the bullet itself. -/
def decompStripChar (c : Char) : Bool :=
  c = '-' || c = 'â' || c = '€' || c = '¢' || c = '*' || c.isDigit || c = '.' || c = ' '

/-- Character set named by the specification and the claim: `-`, the bullet
`•`, `*`, the ASCII digits, `.` and space.  Used only to exhibit how the
claimed algorithm differs from the code's mojibake set. -/
def specStripChar (c : Char) : Bool :=
  c = '-' || c = '•' || c = '*' || c.isDigit || c = '.' || c = ' '

/-- Loop body of `parse_decomposition_output`, parameterised by the strip set.
`parsed` accumulates the appended candidates; the Python `seen` set always
holds exactly the elements of `parsed`, so the membership test
`candidate not in seen` is modelled as membership in `parsed`. -/
def parseLoop (strip : Char → Bool) (maxq : Nat) : List PyStr → List PyStr → List PyStr
  | [], parsed => parsed
  | line :: rest, parsed =>
    let candidate := pyStrip (pyLStrip strip (pyStrip line))
    if candidate = [] then parseLoop strip maxq rest parsed
    else if pyLower candidate = "queries:".toList ∨
        List.isPrefixOf "queries".toList (pyLower candidate) = true then
      parseLoop strip maxq rest parsed
    else
      let parsed' := if candidate ∈ parsed then parsed else parsed ++ [candidate]
      if maxq ≤ parsed'.length then parsed' else parseLoop strip maxq rest parsed'

/-- Shallow embedding of `LangChainClient.parse_decomposition_output`
(`src/backend/src/search/langchain_client.py`, lines 268-295).  The raw model
output is modelled by the list of its lines (Python `splitlines`); an empty
raw output corresponds to the empty list of lines, for which the early
`return []` and the loop agree. -/
def parse_decomposition_output (rawLines : List PyStr) (maxq : Nat) : List PyStr :=
  parseLoop decompStripChar maxq rawLines []

/-- The normalization algorithm exactly as the claim states it, i.e. with the
bullet `•` in the strip set; identical to the code except for that set. -/
def parse_decomposition_claimAlg (rawLines : List PyStr) (maxq : Nat) : List PyStr :=
  parseLoop specStripChar maxq rawLines []

/-- Result of one `decompose_query` run: the returned value (or the
uncaught `ValueError`) together with whether the language model was
actually invoked. -/
structure DecomposeRun where
  result : Except PyStr (List PyStr)
  modelCalled : Bool

/-- Shallow embedding of `LangChainClient.decompose_query`
(`src/backend/src/search/langchain_client.py`, lines 112-159).
`configured` models `is_configured()` (presence of a Gemini API key);
`chain` models `chain.invoke(...)` followed by `splitlines`: either the
lines of the raw model output, or the message of a raised exception.  The
catch-all `except Exception` of the source is the `Except.error` branch. -/
def decompose_query (configured : Bool) (maxq : Nat)
    (chain : Except PyStr (List PyStr)) (user_query : PyStr) : DecomposeRun :=
  let cleaned := pyStrip user_query
  if cleaned = [] then
    ⟨Except.error "user_query must be a non-empty string".toList, false⟩
  else if configured = false then
    ⟨Except.ok [cleaned], false⟩
  else
    match chain with
    | Except.error _ => ⟨Except.ok [cleaned], true⟩
    | Except.ok rawLines =>
      let sub_queries := parse_decomposition_output rawLines maxq
      if sub_queries = [] then ⟨Except.ok [cleaned], true⟩
      else ⟨Except.ok sub_queries, true⟩

/-- One web search hit, `WebSearchResult` of `src/backend/src/services/web_search.py`
restricted to the fields the search pipeline reads. -/
structure SearchResult where
  title : PyStr
  url : PyStr
  snippet : PyStr
deriving DecidableEq

/-- Modelled from the spec: `SubQueryOutcome` of section 3 — the file
`src/backend/src/search/multi_search.py` is not under `src/`, only its tests
and callers are. -/
structure SubQueryOutcome where
  query : PyStr
  results : List SearchResult
  error : Option PyStr
deriving DecidableEq

/-- Modelled from the spec: `MultiSearchResponse` of section 3. -/
structure MultiSearchResponse where
  sub_queries : List PyStr
  per_query_outcomes : List SubQueryOutcome
  aggregated_urls : List PyStr
deriving DecidableEq

/-- Modelled from the spec: the per-sub-query search step of section 4.2 —
each call is wrapped individually, a thrown error produces
`SubQueryOutcome(results=[], error=message)`, a successful call produces the
first `per_query_results` results.  `searchCap` is the web search capability
oracle (query, max results). -/
def runSubQuery (searchCap : PyStr → Nat → Except PyStr (List SearchResult))
    (per_query_results : Nat) (q : PyStr) : SubQueryOutcome :=
  match searchCap q per_query_results with
  | Except.ok rs => ⟨q, rs.take per_query_results, none⟩
  | Except.error e => ⟨q, [], some e⟩

/-- Modelled from the spec: the aggregation walk of section 4.2 — append each
URL if non-empty and not already present, stop appending once
`max_total_results` URLs have been collected. -/
def aggLoop (maxTotal : Nat) : List PyStr → List PyStr → List PyStr
  | [], acc => acc
  | u :: rest, acc =>
    if maxTotal ≤ acc.length then acc
    else if u = [] ∨ u ∈ acc then aggLoop maxTotal rest acc
    else aggLoop maxTotal rest (acc ++ [u])

/-- Modelled from the spec: URLs of all outcomes, walked in sub-query order
and then in per-outcome result order. -/
def outcomeUrls (outcomes : List SubQueryOutcome) : List PyStr :=
  outcomes.flatMap (fun o => o.results.map (fun r => r.url))

/-- Modelled from the spec: `MultiQuerySearchOrchestrator.run` of section 4.2
(`src/backend/src/search/multi_search.py` is not under `src/`).  Blank
sub-queries are filtered out after trimming; when nothing remains an
all-empty response is returned with no search calls; otherwise one outcome
is produced per remaining sub-query and the aggregation walk builds
`aggregated_urls` capped at `max_total_results`. -/
def MultiQuerySearchOrchestrator.run
    (searchCap : PyStr → Nat → Except PyStr (List SearchResult))
    (sub_queries : List PyStr) (per_query_results max_total_results : Nat) :
    MultiSearchResponse :=
  let cleaned := (sub_queries.map pyStrip).filter (fun q => q ≠ [])
  if cleaned = [] then ⟨[], [], []⟩
  else
    let outcomes := cleaned.map (runSubQuery searchCap per_query_results)
    ⟨cleaned, outcomes, aggLoop max_total_results (outcomeUrls outcomes) []⟩

/-- Data structure `ContentExtractionResult` of
`src/backend/src/services/content_extractor.py` (lines 17-45). -/
structure ContentExtractionResult where
  url : PyStr
  title : PyStr
  extracted_text : PyStr
  extraction_method : PyStr
  success : Bool
  error_message : PyStr
deriving DecidableEq, Inhabited

/-- Shallow embedding of `ContentExtractor._extract_content_from_single_url`
(`src/backend/src/services/content_extractor.py`, lines 98-176).  The whole
body — fetch, title extraction, the two extraction tiers — is modelled by the
oracle `body`: it either returns the `ContentExtractionResult` the body would
build, or raises; the enclosing `try/except Exception` converts a raised
exception into a failed result for that URL. -/
def extractSingle (body : PyStr → Except PyStr ContentExtractionResult)
    (url : PyStr) : ContentExtractionResult :=
  match body url with
  | Except.ok r => r
  | Except.error e => ⟨url, [], [], "failed".toList, false, e⟩

/-- Filtering step of `extract_content_from_urls` (lines 81-89): results of
`asyncio.gather(..., return_exceptions=True)` that are not
`ContentExtractionResult` (i.e. escaped exceptions) are dropped. -/
def filterValid : List (Except PyStr ContentExtractionResult) → List ContentExtractionResult
  | [] => []
  | Except.ok r :: rest => r :: filterValid rest
  | Except.error _ :: rest => filterValid rest

/-- Shallow embedding of `ContentExtractor.extract_content_from_urls`
(`src/backend/src/services/content_extractor.py`, lines 55-89).  One task is
created per URL in input order; `asyncio.gather` stores each task's value at
the task's index, so the gathered list is the input-order map.  Since
`extractSingle` catches every exception, every gathered entry is a genuine
result and survives the filter. -/
def extract_content_from_urls (body : PyStr → Except PyStr ContentExtractionResult)
    (urls : List PyStr) : List ContentExtractionResult :=
  if urls = [] then []
  else filterValid (urls.map (fun u => Except.ok (extractSingle body u)))

/-- Data structure `CollatedDocument` of
`src/backend/src/search/content_collator.py` (lines 18-25). -/
structure CollatedDocument where
  url : PyStr
  title : PyStr
  text : PyStr
  extraction_method : PyStr
deriving DecidableEq

/-- Data structure `CollationSummary` (lines 28-36).  `failures` is the Python
integer `len(urls) - len(documents)`, kept as `Int` since Python subtraction
is not truncated. -/
structure CollationSummary where
  total_urls : Nat
  successes : Nat
  failures : Int
  truncated : Nat
  failure_details : List PyStr
deriving DecidableEq

/-- Data structure `ContentCollation` (lines 39-45). -/
structure ContentCollation where
  documents : List CollatedDocument
  summary : CollationSummary
  concatenated_text : PyStr
deriving DecidableEq

/-- The `for result in extraction_results` loop of `ContentCollator.collate`
(`src/backend/src/search/content_collator.py`, lines 78-106), carrying the
running character total; returns the accepted documents, the truncated count
and the recorded failure details.  The `break` of line 106 is the early
return once the running total reaches `max_total_chars`. -/
def collateLoop (maxChars : Nat) :
    List ContentExtractionResult → Nat → List CollatedDocument × Nat × List PyStr
  | [], _ => ([], 0, [])
  | r :: rest, total =>
    if r.success = false then
      let step := collateLoop maxChars rest total
      (step.1, step.2.1, (r.url ++ ": ".toList ++ r.error_message) :: step.2.2)
    else
      let text0 := r.extracted_text
      let truncated := maxChars < total + text0.length
      let text := if maxChars < total + text0.length then text0.take (maxChars - total) else text0
      if text = [] then collateLoop maxChars rest total
      else
        let doc : CollatedDocument := ⟨r.url, r.title, text, r.extraction_method⟩
        let total' := total + text.length
        let tcount := if truncated then 1 else 0
        if maxChars ≤ total' then ([doc], tcount, [])
        else
          let step := collateLoop maxChars rest total'
          (doc :: step.1, tcount + step.2.1, step.2.2)

/-- Shallow embedding of `ContentCollator.collate`
(`src/backend/src/search/content_collator.py`, lines 51-121).  `extractor`
models the batch extraction call; the returned `Bool` records whether it was
invoked (the empty-URL branch returns before any extraction call). -/
def ContentCollator.collate (urls : List PyStr)
    (extractor : List PyStr → List ContentExtractionResult)
    (maxChars : Nat) : ContentCollation × Bool :=
  if urls = [] then
    (⟨[], ⟨0, 0, 0, 0, []⟩, []⟩, false)
  else
    let results := extractor urls
    let walk := collateLoop maxChars results 0
    let documents := walk.1
    let summary : CollationSummary :=
      ⟨urls.length, documents.length, (urls.length : Int) - (documents.length : Int),
        walk.2.1, walk.2.2⟩
    (⟨documents, summary, List.intercalate "\n\n".toList (documents.map (fun d => d.text))⟩,
      true)

/-- Data structure `SynthesizedAnswer` of
`src/backend/src/search/answer_synthesizer.py` (lines 21-28), restricted to
the fields the pipeline reads (the token counters stay `None` throughout). -/
structure SynthesizedAnswer where
  answer : PyStr
  cited_urls : List PyStr
deriving DecidableEq

/-- The canned sentence returned by the synthesizer fallbacks. -/
def cannedAnswer : PyStr :=
  "I could not find information about that in the retrieved context.".toList

/-- Result of one `AnswerSynthesizer.synthesize` run: the returned value (or
the uncaught exception of `chain.ainvoke`) together with whether the model
was actually invoked. -/
structure SynthesizeRun where
  result : Except PyStr SynthesizedAnswer
  modelCalled : Bool

/-- Shallow embedding of `AnswerSynthesizer.synthesize`
(`src/backend/src/search/answer_synthesizer.py`, lines 77-104).  `configured`
models `self._model is not None` (an API key was supplied to the
constructor); `chain` models `chain.ainvoke(...)`: the raw answer text or a
raised exception, which `synthesize` itself does not catch. -/
def AnswerSynthesizer.synthesize (configured : Bool)
    (chain : Except PyStr PyStr) (collation : ContentCollation) : SynthesizeRun :=
  if collation.documents = [] then
    ⟨Except.ok ⟨cannedAnswer, []⟩, false⟩
  else if configured = false then
    ⟨Except.ok ⟨cannedAnswer, collation.documents.map (fun d => d.url)⟩, false⟩
  else
    match chain with
    | Except.error e => ⟨Except.error e, true⟩
    | Except.ok raw =>
      ⟨Except.ok ⟨pyStrip raw, collation.documents.map (fun d => d.url)⟩, true⟩

/-- Shallow embedding of `LangChainClient.synthesize_answer`
(`src/backend/src/search/langchain_client.py`, lines 207-219): any exception
raised by `synthesizer.synthesize` is caught and converted to `None`. -/
def synthesize_answer (configured : Bool) (chain : Except PyStr PyStr)
    (collation : ContentCollation) : Option SynthesizedAnswer :=
  match (AnswerSynthesizer.synthesize configured chain collation).result with
  | Except.ok a => some a
  | Except.error _ => none

/-- API model `WebSearchResult` of `src/backend/src/api/v1/models.py` as
constructed by the endpoint. -/
structure ApiWebSearchResult where
  title : PyStr
  url : PyStr
  snippet : PyStr
  source : PyStr
deriving DecidableEq

/-- API model `ExtractedContent` as constructed by the endpoint. -/
structure ExtractedContent where
  url : PyStr
  title : PyStr
  extracted_text : PyStr
  extraction_method : PyStr
  success : Bool
  error_message : Option PyStr
deriving DecidableEq

/-- API model `LLMResponse` as constructed by the endpoint (token counter
always `None` there). -/
structure LLMResponse where
  answer : PyStr
  success : Bool
  error_message : Option PyStr
  tokens_used : Option Nat
deriving DecidableEq

/-- API model `SearchResponse` of `src/backend/src/api/v1/models.py` as
constructed at `src/backend/src/api/v1/endpoints.py`, lines 262-272. -/
structure SearchResponse where
  sources : List ApiWebSearchResult
  extracted_content : List ExtractedContent
  content_summary : PyStr
  llm_answer : Option LLMResponse
  citations : Option (List PyStr)
  sub_queries : List PyStr
  original_query : PyStr
  enhanced_query : PyStr
  query_enhancement_success : Option Bool
deriving DecidableEq

/-- A FastAPI `HTTPException`: status code and detail message. -/
structure HTTPError where
  status_code : Nat
  detail : PyStr
deriving DecidableEq

/-- One step of the endpoint's source accumulation (lines 155-182): the state
is the collected sources plus the `seen_urls` set, modelled as the list of
collected URLs; a result is skipped when its URL is empty or already seen. -/
def addSource (st : List ApiWebSearchResult × List PyStr)
    (title url snippet : PyStr) : List ApiWebSearchResult × List PyStr :=
  if url = [] ∨ url ∈ st.2 then st
  else (st.1 ++ [⟨title, url, snippet, "web_search".toList⟩], st.2 ++ [url])

/-- The endpoint's two source-building walks (lines 155-182): first every
outcome's results, then the aggregated URLs, sharing one `seen_urls` set. -/
def buildSources (ms : MultiSearchResponse) : List ApiWebSearchResult :=
  let st1 := ms.per_query_outcomes.foldl
    (fun st o => o.results.foldl (fun st r => addSource st r.title r.url r.snippet) st)
    ([], [])
  (ms.aggregated_urls.foldl (fun st u => addSource st [] u []) st1).1

/-- Python `detail.split(": ", maxsplit=1)` restricted to what the endpoint
reads: the part before the first occurrence of the separator and the part
after it, or `none` when the separator does not occur. -/
def splitFirst (sep : PyStr) : PyStr → Option (PyStr × PyStr)
  | [] => none
  | c :: rest =>
    if List.isPrefixOf sep (c :: rest) = true then some ([], (c :: rest).drop sep.length)
    else
      match splitFirst sep rest with
      | some p => some (c :: p.1, p.2)
      | none => none

/-- The endpoint's failure-detail conversion (lines 201-214). -/
def failureEntry (detail : PyStr) : ExtractedContent :=
  match splitFirst ": ".toList detail with
  | some p => ⟨p.1, [], [], "failed".toList, false, some p.2⟩
  | none => ⟨detail, [], [], "failed".toList, false, some detail⟩

/-- The endpoint's `content_summary` sentence (lines 219-229); Python
truthiness of the integer counters is the comparison with zero. -/
def contentSummary (s : CollationSummary) : PyStr :=
  if s.successes ≠ 0 then
    "Successfully extracted content from ".toList ++ (toString s.successes).toList
      ++ " out of ".toList ++ (toString s.total_urls).toList ++ " sources.".toList
      ++ (if s.failures ≠ 0 then
            " ".toList ++ (toString s.failures).toList ++ " extractions failed.".toList
          else [])
  else if s.total_urls ≠ 0 then "Content extraction failed for all sources.".toList
  else "No sources available for extraction.".toList

/-- Configuration values of `LangChainConfig`
(`src/backend/src/search/langchain_client.py`, lines 49-61) read by the
pipeline model. -/
structure LangChainConfig where
  max_sub_queries : Nat
  per_query_search_results : Nat
  max_total_search_results : Nat
  content_extraction_max_total_chars : Nat

/-- The external capabilities one request consumes, as oracles: `configured`
is the presence of a Gemini API key (shared by decomposition and synthesis);
the three `Except`-valued fields model the decomposition model call, the web
search capability, the per-URL extraction body and the synthesis model
call. -/
structure PipelineOracles where
  configured : Bool
  decompChain : Except PyStr (List PyStr)
  searchCap : PyStr → Nat → Except PyStr (List SearchResult)
  extractBody : PyStr → Except PyStr ContentExtractionResult
  synthChain : Except PyStr PyStr

/-- The multi-search response the endpoint computes for a request (Stage 3),
given that decomposition returned `sub_queries`. -/
def pipelineMultiSearch (cfg : LangChainConfig) (o : PipelineOracles)
    (sub_queries : List PyStr) : MultiSearchResponse :=
  MultiQuerySearchOrchestrator.run o.searchCap sub_queries
    cfg.per_query_search_results cfg.max_total_search_results

/-- The collation the endpoint computes for a request (Stage 4). -/
def pipelineCollation (cfg : LangChainConfig) (o : PipelineOracles)
    (ms : MultiSearchResponse) : ContentCollation :=
  (ContentCollator.collate ms.aggregated_urls
    (extract_content_from_urls o.extractBody)
    cfg.content_extraction_max_total_chars).1

/-- Shallow embedding of the `/api/v1/search` endpoint
(`src/backend/src/api/v1/endpoints.py`, lines 130-284).  The empty-query
validation raises `ValueError`, caught by the endpoint's own handler and
re-raised as HTTP 400; that is the `Except.error` value.  Decomposition runs
twice exactly as in the source (once directly, once inside
`generate_multi_search_plan`), against the same oracle.  Every other failure
is absorbed by the stage models, so the generic 500 handler of line 277 is
unreachable in this model. -/
def endpoint_search (cfg : LangChainConfig) (o : PipelineOracles)
    (query : PyStr) : Except HTTPError SearchResponse :=
  if pyStrip query = [] then
    Except.error ⟨400, "Search query cannot be empty".toList⟩
  else
    match (decompose_query o.configured cfg.max_sub_queries o.decompChain query).result with
    | Except.error e => Except.error ⟨400, e⟩
    | Except.ok sub_queries =>
      match (decompose_query o.configured cfg.max_sub_queries o.decompChain query).result with
      | Except.error e => Except.error ⟨400, e⟩
      | Except.ok sub_queries2 =>
        let ms := pipelineMultiSearch cfg o sub_queries2
        let sources := buildSources ms
        let collation := pipelineCollation cfg o ms
        let okDocs := collation.documents.map
          (fun d => (⟨d.url, d.title, d.text, d.extraction_method, true, none⟩ : ExtractedContent))
        let failDocs := collation.summary.failure_details.map failureEntry
        let synth := synthesize_answer o.configured o.synthChain collation
        Except.ok
          ⟨sources, okDocs ++ failDocs, contentSummary collation.summary,
            synth.map (fun a => (⟨a.answer, true, none, none⟩ : LLMResponse)),
            synth.map (fun a => a.cited_urls),
            sub_queries, query, query, none⟩

/-- State of the collation walk as the claim describes it: accepted documents,
running character total, truncated count and recorded failure details. -/
structure CollateState where
  documents : List CollatedDocument
  total : Nat
  truncated : Nat
  failure_details : List PyStr
deriving DecidableEq

/-- The claim's truncation of a successful result's text: when the text
exceeds the remaining budget `max_total_chars - total`, truncate it to
exactly that remaining amount, else keep it. -/
def budgetText (maxChars total : Nat) (r : ContentExtractionResult) : PyStr :=
  if maxChars - total < r.extracted_text.length then
    r.extracted_text.take (maxChars - total)
  else r.extracted_text

/-- One step of the collation walk exactly as the claim words it: nothing is
processed once the running total has reached `max_total_chars`; a failed
result records its detail and is skipped; a successful result whose text
exceeds the remaining budget `max_total_chars - total` is truncated to
exactly that remaining amount and counted as truncated; a document whose
(truncated) text is empty is skipped entirely. -/
def claimCollateStep (maxChars : Nat) (st : CollateState)
    (r : ContentExtractionResult) : CollateState :=
  if maxChars ≤ st.total then st
  else if r.success = false then
    ⟨st.documents, st.total, st.truncated,
      st.failure_details ++ [r.url ++ ": ".toList ++ r.error_message]⟩
  else if budgetText maxChars st.total r = [] then st
  else
    ⟨st.documents ++ [⟨r.url, r.title, budgetText maxChars st.total r, r.extraction_method⟩],
      st.total + (budgetText maxChars st.total r).length,
      st.truncated + (if maxChars - st.total < r.extracted_text.length then 1 else 0),
      st.failure_details⟩

/-- The collation walk as the claim describes it, over the extraction results
in order. -/
def claimCollateWalk (maxChars : Nat) (results : List ContentExtractionResult) :
    CollateState :=
  results.foldl (claimCollateStep maxChars) ⟨[], 0, 0, []⟩

/-- Completion model for `asyncio.gather`: tasks finish in the order given by
the schedule `σ` (a permutation of the task indices), and a task finishing
writes its value into its own slot of the result table. -/
def scheduleTable (outs : List ContentExtractionResult) (σ : List Nat) :
    List (Option ContentExtractionResult) :=
  σ.foldl (fun tbl i => tbl.set i (some (outs.getD i default)))
    (List.replicate outs.length none)

/-- The list `asyncio.gather` returns under completion schedule `σ`: the
result table read out slot by slot. -/
def gatherWithSchedule (outs : List ContentExtractionResult) (σ : List Nat) :
    List ContentExtractionResult :=
  (scheduleTable outs σ).map (fun x => x.getD default)

/-- The batch extraction of `extract_content_from_urls` with the concurrent
completion order made explicit: the per-URL tasks are created in input order,
complete in the order `σ`, and are then gathered and filtered exactly as in
the source. -/
def extract_with_schedule (body : PyStr → Except PyStr ContentExtractionResult)
    (urls : List PyStr) (σ : List Nat) : List ContentExtractionResult :=
  if urls = [] then []
  else filterValid ((gatherWithSchedule (urls.map (extractSingle body)) σ).map Except.ok)

/-- Test fixture: the web search mapping of
`src/backend/tests/test_multi_search.py` (queries `a` and `b` with one
overlapping URL). -/
def testSearchCap : PyStr → Nat → Except PyStr (List SearchResult) :=
  fun q _ =>
    if q = "query a".toList then
      Except.ok [⟨"t1".toList, "https://example.com/a1".toList, "snip".toList⟩,
        ⟨"t2".toList, "https://example.com/a2".toList, "snip".toList⟩]
    else if q = "query b".toList then
      Except.ok [⟨"t3".toList, "https://example.com/a2".toList, "snip".toList⟩,
        ⟨"t4".toList, "https://example.com/b1".toList, "snip".toList⟩]
    else Except.error "boom".toList

/-- Test fixture: a per-URL extraction body mirroring
`src/backend/tests/test_content_collator.py` — `u1` extracts ten characters,
`u2` fails, anything else raises. -/
def testExtractBody : PyStr → Except PyStr ContentExtractionResult :=
  fun u =>
    if u = "u1".toList then
      Except.ok ⟨"u1".toList, "Title".toList, "xxxxxxxxxx".toList, "trafilatura".toList, true, []⟩
    else if u = "u2".toList then
      Except.ok ⟨"u2".toList, "Title".toList, [], "failed".toList, false, "boom".toList⟩
    else Except.error "boom".toList

/-- Test fixture: a one-document collation (mirrors `_build_collation` of
`src/backend/tests/test_answer_synthesizer.py`). -/
def testCollation : ContentCollation :=
  ⟨[⟨"https://example.com/1".toList, "Doc 1".toList, "Doc text".toList, "trafilatura".toList⟩],
    ⟨1, 1, 0, 0, []⟩, "Doc text".toList⟩

/-- The collation the endpoint computes for a whole request: decomposition
followed by multi-search followed by collation (the value the `Stage 4` local
`collation` of the endpoint holds when the query is valid). -/
def requestCollation (cfg : LangChainConfig) (o : PipelineOracles)
    (query : PyStr) : ContentCollation :=
  match (decompose_query o.configured cfg.max_sub_queries o.decompChain query).result with
  | Except.error _ => ⟨[], ⟨0, 0, 0, 0, []⟩, []⟩
  | Except.ok subs => pipelineCollation cfg o (pipelineMultiSearch cfg o subs)

/-- Test fixture: an extraction body for end-to-end runs — the first URL of
the `query a` fixture extracts successfully, everything else raises. -/
def testPipelineBody : PyStr → Except PyStr ContentExtractionResult :=
  fun u =>
    if u = "https://example.com/a1".toList then
      Except.ok ⟨u, "T1".toList, "Doc text".toList, "trafilatura".toList, true, []⟩
    else Except.error "boom".toList

/-- Test fixture: a pipeline configuration with small caps. -/
def testConfig : LangChainConfig :=
  ⟨3, 2, 6, 100⟩

/-- Test fixture: oracles for a fully configured request whose synthesis model
call raises. -/
def testOraclesSynthFail : PipelineOracles :=
  ⟨true, Except.ok [], testSearchCap, testPipelineBody, Except.error "boom".toList⟩

/-- Test fixture: oracles for a fully configured request whose synthesis
succeeds. -/
def testOraclesOk : PipelineOracles :=
  ⟨true, Except.ok [], testSearchCap, testPipelineBody, Except.ok " Answer ".toList⟩

/-- C2: the claimed normalization algorithm requires stripping a leading run
over the set containing the bullet `•`; the code's `lstrip` literal instead
holds the mojibake `â€¢` (U+00E2, U+20AC, U+00A2), so a bullet-prefixed line
keeps its bullet while the claimed algorithm strips it; the claim's own
numbered/dashed example is unaffected and holds for the code. -/
theorem C2_parse_bullet_mojibake :
  parse_decomposition_output ["• history of mars".toList] 3 = ["• history of mars".toList]
  ∧ parse_decomposition_claimAlg ["• history of mars".toList] 3 = ["history of mars".toList]
  ∧ parse_decomposition_output
      ["1. history of mars".toList, "- history of mars missions".toList,
       "".toList, "Mars weather".toList] 3
    = ["history of mars".toList, "history of mars missions".toList, "Mars weather".toList] := by
  decide

/-- C6: with no documents `synthesize` returns the canned sentence with empty
citations and no model call; with documents but no configured model it
returns the canned sentence citing every document URL with no model call;
with a configured model and documents, whatever text the model returns, the
cited URLs are exactly the ordered document URLs. -/
theorem C6_synthesize_citation_universe :
  ∀ (configured : Bool) (chain : Except PyStr PyStr) (collation : ContentCollation),
    (collation.documents = [] →
      AnswerSynthesizer.synthesize configured chain collation =
        ⟨Except.ok ⟨cannedAnswer, []⟩, false⟩)
    ∧ (collation.documents ≠ [] → configured = false →
        AnswerSynthesizer.synthesize configured chain collation =
          ⟨Except.ok ⟨cannedAnswer, collation.documents.map (fun d => d.url)⟩, false⟩)
    ∧ (collation.documents ≠ [] → configured = true → ∀ raw, chain = Except.ok raw →
        AnswerSynthesizer.synthesize configured chain collation =
          ⟨Except.ok ⟨pyStrip raw, collation.documents.map (fun d => d.url)⟩, true⟩) := by
  intro configured chain collation
  refine ⟨?_, ?_, ?_⟩
  · intro h
    simp [AnswerSynthesizer.synthesize, h]
  · intro h hc
    simp [AnswerSynthesizer.synthesize, h, hc]
  · intro h hc raw hraw
    subst hc
    subst hraw
    simp [AnswerSynthesizer.synthesize, h]

/-- Witness for C6 at an empty collation and at the one-document fixture. -/
theorem C6_synthesize_citation_universe_witness :
  AnswerSynthesizer.synthesize true (Except.ok " Answer ".toList)
      ⟨[], ⟨0, 0, 0, 0, []⟩, []⟩ = ⟨Except.ok ⟨cannedAnswer, []⟩, false⟩
  ∧ AnswerSynthesizer.synthesize false (Except.ok " Answer ".toList) testCollation =
      ⟨Except.ok ⟨cannedAnswer, ["https://example.com/1".toList]⟩, false⟩
  ∧ AnswerSynthesizer.synthesize true (Except.ok " Answer ".toList) testCollation =
      ⟨Except.ok ⟨"Answer".toList, ["https://example.com/1".toList]⟩, true⟩ :=
  ⟨(C6_synthesize_citation_universe true (Except.ok " Answer ".toList) ⟨[], ⟨0, 0, 0, 0, []⟩, []⟩).1 rfl,
   (C6_synthesize_citation_universe false (Except.ok " Answer ".toList) testCollation).2.1
     (by decide) rfl,
   (C6_synthesize_citation_universe true (Except.ok " Answer ".toList) testCollation).2.2
     (by decide) rfl " Answer ".toList rfl⟩

/-- C5: the collation summary counts successes as the accepted documents and
failures as total URLs minus accepted documents (so budget-skipped documents
count as failures), the concatenated text joins the accepted documents'
texts with a blank line in acceptance order, and an empty URL list yields the
all-zero collation without invoking the extractor. -/
theorem C5_collate_summary_accounting :
  ∀ (urls : List PyStr) (extractor : List PyStr → List ContentExtractionResult) (maxChars : Nat),
    ((ContentCollator.collate urls extractor maxChars).1.summary.successes =
      (ContentCollator.collate urls extractor maxChars).1.documents.length)
    ∧ ((ContentCollator.collate urls extractor maxChars).1.summary.failures =
        (urls.length : Int) -
          ((ContentCollator.collate urls extractor maxChars).1.documents.length : Int))
    ∧ ((ContentCollator.collate urls extractor maxChars).1.concatenated_text =
        List.intercalate "\n\n".toList
          ((ContentCollator.collate urls extractor maxChars).1.documents.map (fun d => d.text)))
    ∧ (urls = [] →
        ContentCollator.collate urls extractor maxChars = (⟨[], ⟨0, 0, 0, 0, []⟩, []⟩, false)) := by
  intro urls extractor maxChars
  by_cases h : urls = [] <;> simp [ContentCollator.collate, h, List.intercalate]

/-- Witness for C5: the empty-URL branch at a concrete instance. -/
theorem C5_collate_summary_accounting_witness :
  ContentCollator.collate [] (fun _ => []) 5 = (⟨[], ⟨0, 0, 0, 0, []⟩, []⟩, false) :=
  (C5_collate_summary_accounting [] (fun _ => []) 5).2.2.2 rfl

/-- The decomposition parse loop never grows past the cap once the
accumulator is below it. -/
theorem parseLoop_length_le (strip : Char → Bool) (maxq : Nat) :
    ∀ (lines : List PyStr) (parsed : List PyStr), parsed.length < maxq →
      (parseLoop strip maxq lines parsed).length ≤ maxq := by
  intro lines
  induction lines with
  | nil =>
    intro parsed h
    simpa [parseLoop] using Nat.le_of_lt h
  | cons line rest ih =>
    intro parsed h
    simp only [parseLoop]
    split
    · exact ih parsed h
    · split
      · exact ih parsed h
      · by_cases hmem : pyStrip (pyLStrip strip (pyStrip line)) ∈ parsed
        · simp only [if_pos hmem]
          split
          · exact Nat.le_of_lt h
          · exact ih parsed h
        · simp only [if_neg hmem]
          split
          · simp only [List.length_append, List.length_singleton]
            omega
          · refine ih _ ?_
            rename_i hgo
            simp only [List.length_append, List.length_singleton] at hgo ⊢
            omega

/-- A non-blank query never makes `decompose_query` raise. -/
theorem decompose_query_ok_of_ne (configured : Bool) (maxq : Nat)
    (chain : Except PyStr (List PyStr)) (q : PyStr) (h : pyStrip q ≠ []) :
    ∃ l called, decompose_query configured maxq chain q = ⟨Except.ok l, called⟩ := by
  simp only [decompose_query, if_neg h]
  by_cases hc : configured = false
  · rw [if_pos hc]
    exact ⟨[pyStrip q], false, rfl⟩
  · rw [if_neg hc]
    cases chain with
    | error e => exact ⟨[pyStrip q], true, rfl⟩
    | ok rawLines =>
      by_cases hp : parse_decomposition_output rawLines maxq = []
      · exact ⟨[pyStrip q], true, by simp [hp]⟩
      · exact ⟨parse_decomposition_output rawLines maxq, true, by simp [hp]⟩

/-- C3: `decompose_query` raises exactly on blank queries; otherwise it
returns between one and `max_sub_queries` sub-queries, and returns exactly
the singleton trimmed query whenever the model is unconfigured (without a
model call), the model call raises, or normalization yields nothing. -/
theorem C3_decompose_query_contract :
  ∀ (configured : Bool) (maxq : Nat) (chain : Except PyStr (List PyStr)) (q : PyStr),
    1 ≤ maxq →
    ((∃ e, (decompose_query configured maxq chain q).result = Except.error e) ↔ pyStrip q = [])
    ∧ (pyStrip q ≠ [] → ∃ l,
        (decompose_query configured maxq chain q).result = Except.ok l
        ∧ 1 ≤ l.length ∧ l.length ≤ maxq)
    ∧ (pyStrip q ≠ [] → configured = false →
        decompose_query configured maxq chain q = ⟨Except.ok [pyStrip q], false⟩)
    ∧ (pyStrip q ≠ [] → ∀ e, chain = Except.error e →
        (decompose_query configured maxq chain q).result = Except.ok [pyStrip q])
    ∧ (pyStrip q ≠ [] → ∀ rawLines, chain = Except.ok rawLines →
        parse_decomposition_output rawLines maxq = [] →
        (decompose_query configured maxq chain q).result = Except.ok [pyStrip q]) := by
  intro configured maxq chain q hmax
  refine ⟨⟨?_, ?_⟩, ?_, ?_, ?_, ?_⟩
  · rintro ⟨e, he⟩
    by_contra hq
    obtain ⟨l, called, hok⟩ := decompose_query_ok_of_ne configured maxq chain q hq
    rw [hok] at he
    exact Except.noConfusion he
  · intro hq
    exact ⟨"user_query must be a non-empty string".toList,
      by simp [decompose_query, if_pos hq]⟩
  · intro hq
    simp only [decompose_query, if_neg hq]
    by_cases hc : configured = false
    · rw [if_pos hc]
      exact ⟨[pyStrip q], rfl, by simp, by simpa using hmax⟩
    · rw [if_neg hc]
      cases chain with
      | error e => exact ⟨[pyStrip q], rfl, by simp, by simpa using hmax⟩
      | ok rawLines =>
        by_cases hp : parse_decomposition_output rawLines maxq = []
        · exact ⟨[pyStrip q], by simp [hp], by simp, by simpa using hmax⟩
        · refine ⟨parse_decomposition_output rawLines maxq, by simp [hp], ?_, ?_⟩
          · have := List.length_pos.mpr hp
            omega
          · exact parseLoop_length_le decompStripChar maxq rawLines [] (by simpa using hmax)
  · intro hq hc
    simp [decompose_query, if_neg hq, hc]
  · intro hq e hch
    subst hch
    by_cases hc : configured = false
    · simp [decompose_query, if_neg hq, hc]
    · simp [decompose_query, if_neg hq, hc]
  · intro hq rawLines hch hp
    subst hch
    by_cases hc : configured = false
    · simp [decompose_query, if_neg hq, hc]
    · simp [decompose_query, if_neg hq, hc, hp]

/-- Witness for C3: the unconfigured fallback and the exception fallback at a
concrete query. -/
theorem C3_decompose_query_contract_witness :
  decompose_query false 3 (Except.ok []) " What is AI? ".toList =
    ⟨Except.ok ["What is AI?".toList], false⟩
  ∧ (decompose_query true 3 (Except.error "boom".toList) " What is AI? ".toList).result =
      Except.ok ["What is AI?".toList] :=
  ⟨by
    have h := (C3_decompose_query_contract false 3 (Except.ok []) " What is AI? ".toList
      (by decide)).2.2.1 (by decide) rfl
    simpa using h,
   by
    have h := (C3_decompose_query_contract true 3 (Except.error "boom".toList)
      " What is AI? ".toList (by decide)).2.2.2.1 (by decide) "boom".toList rfl
    simpa using h⟩

/-- Gathered values that are all genuine results pass the exception filter
unchanged. -/
theorem filterValid_map_ok (l : List ContentExtractionResult) :
    filterValid (l.map Except.ok) = l := by
  induction l with
  | nil => rfl
  | cons r rest ih => simp [filterValid, ih]

/-- C7: batch extraction returns exactly one result per input URL in input
order; an exception raised while extracting one URL is converted into a
failed result carrying that URL and the error message, and each position's
result depends only on the extraction behaviour at its own URL. -/
theorem C7_extract_one_result_per_url :
  ∀ (body body' : PyStr → Except PyStr ContentExtractionResult) (urls : List PyStr),
    extract_content_from_urls body urls = urls.map (extractSingle body)
    ∧ (extract_content_from_urls body urls).length = urls.length
    ∧ (∀ i (h : i < urls.length) (e : PyStr), body (urls.get ⟨i, h⟩) = Except.error e →
        (urls.map (extractSingle body)).get ⟨i, by simpa using h⟩ =
          ⟨urls.get ⟨i, h⟩, [], [], "failed".toList, false, e⟩)
    ∧ (∀ i (h : i < urls.length), body (urls.get ⟨i, h⟩) = body' (urls.get ⟨i, h⟩) →
        (urls.map (extractSingle body)).get ⟨i, by simpa using h⟩ =
          (urls.map (extractSingle body')).get ⟨i, by simpa using h⟩) := by
  intro body body' urls
  have hmap : extract_content_from_urls body urls = urls.map (extractSingle body) := by
    by_cases h : urls = []
    · simp [extract_content_from_urls, h]
    · simp only [extract_content_from_urls, if_neg h]
      have hcomp : List.map (fun u => (Except.ok (extractSingle body u) : Except PyStr ContentExtractionResult)) urls
          = (urls.map (extractSingle body)).map (Except.ok : ContentExtractionResult → Except PyStr ContentExtractionResult) := by
        simp [List.map_map]
      rw [hcomp, filterValid_map_ok]
  refine ⟨hmap, by rw [hmap]; simp, ?_, ?_⟩
  · intro i h e he
    simp only [List.get_eq_getElem] at he
    simp [List.getElem_map, extractSingle, he]
  · intro i h hsame
    simp only [List.get_eq_getElem] at hsame
    simp [List.getElem_map, extractSingle, hsame]

/-- Witness for C7: a two-URL batch where the second URL's extraction raises;
the batch still yields two results and the second is the converted
failure. -/
theorem C7_extract_one_result_per_url_witness :
  (extract_content_from_urls testExtractBody ["u1".toList, "zz".toList]).length = 2
  ∧ ((["u1".toList, "zz".toList] : List PyStr).map (extractSingle testExtractBody)).get
      ⟨1, by decide⟩ = ⟨"zz".toList, [], [], "failed".toList, false, "boom".toList⟩ :=
  ⟨(C7_extract_one_result_per_url testExtractBody testExtractBody
      ["u1".toList, "zz".toList]).2.1,
   (C7_extract_one_result_per_url testExtractBody testExtractBody
      ["u1".toList, "zz".toList]).2.2.1 1 (by decide) "boom".toList rfl⟩

/-- Every URL already collected stays in the aggregation accumulator. -/
theorem aggLoop_mem_mono (maxTotal : Nat) :
    ∀ (us acc : List PyStr) (x : PyStr), x ∈ acc → x ∈ aggLoop maxTotal us acc := by
  intro us
  induction us with
  | nil => intro acc x hx; simpa [aggLoop] using hx
  | cons u rest ih =>
    intro acc x hx
    simp only [aggLoop]
    split
    · exact hx
    · split
      · exact ih acc x hx
      · exact ih (acc ++ [u]) x (List.mem_append_left _ hx)

/-- Everything the aggregation walk returns was already collected or is one
of the walked URLs. -/
theorem aggLoop_mem_subset (maxTotal : Nat) :
    ∀ (us acc : List PyStr) (x : PyStr), x ∈ aggLoop maxTotal us acc →
      x ∈ acc ∨ x ∈ us := by
  intro us
  induction us with
  | nil => intro acc x hx; left; simpa [aggLoop] using hx
  | cons u rest ih =>
    intro acc x hx
    simp only [aggLoop] at hx
    split at hx
    · exact Or.inl hx
    · split at hx
      · rcases ih acc x hx with h | h
        · exact Or.inl h
        · exact Or.inr (List.mem_cons_of_mem u h)
      · rcases ih (acc ++ [u]) x hx with h | h
        · rcases List.mem_append.mp h with h | h
          · exact Or.inl h
          · exact Or.inr (by simpa using Or.inl (List.mem_singleton.mp h))
        · exact Or.inr (List.mem_cons_of_mem u h)

/-- The aggregation walk preserves the no-duplicates invariant. -/
theorem aggLoop_nodup (maxTotal : Nat) :
    ∀ (us acc : List PyStr), acc.Nodup → (aggLoop maxTotal us acc).Nodup := by
  intro us
  induction us with
  | nil => intro acc h; simpa [aggLoop] using h
  | cons u rest ih =>
    intro acc h
    simp only [aggLoop]
    split
    · exact h
    · split
      · exact ih acc h
      · rename_i hne
        refine ih (acc ++ [u]) ?_
        have hu : u ∉ acc := by
          intro hmem
          exact hne (Or.inr hmem)
        simpa [List.nodup_append] using ⟨h, hu⟩

/-- The aggregation walk appends an order-preserving selection of the walked
URLs to the accumulator. -/
theorem aggLoop_append_sublist (maxTotal : Nat) :
    ∀ (us acc : List PyStr), ∃ l, aggLoop maxTotal us acc = acc ++ l ∧ l.Sublist us := by
  intro us
  induction us with
  | nil => intro acc; exact ⟨[], by simp [aggLoop], List.Sublist.refl []⟩
  | cons u rest ih =>
    intro acc
    simp only [aggLoop]
    split
    · exact ⟨[], by simp, List.nil_sublist _⟩
    · split
      · obtain ⟨l, hl, hs⟩ := ih acc
        exact ⟨l, hl, hs.trans (List.sublist_cons_self u rest)⟩
      · obtain ⟨l, hl, hs⟩ := ih (acc ++ [u])
        exact ⟨u :: l, by simpa using hl, List.cons_sublist_cons.mpr hs⟩

/-- The aggregation walk respects the total cap. -/
theorem aggLoop_length_le (maxTotal : Nat) :
    ∀ (us acc : List PyStr), acc.length ≤ maxTotal →
      (aggLoop maxTotal us acc).length ≤ maxTotal := by
  intro us
  induction us with
  | nil => intro acc h; simpa [aggLoop] using h
  | cons u rest ih =>
    intro acc h
    simp only [aggLoop]
    split
    · exact h
    · rename_i hlt
      split
      · exact ih acc h
      · refine ih (acc ++ [u]) ?_
        simp only [List.length_append, List.length_singleton]
        omega

/-- The aggregation walk never collects an empty URL. -/
theorem aggLoop_empty_not_mem (maxTotal : Nat) :
    ∀ (us acc : List PyStr), ([] : PyStr) ∉ acc →
      ([] : PyStr) ∉ aggLoop maxTotal us acc := by
  intro us
  induction us with
  | nil => intro acc h; simpa [aggLoop] using h
  | cons u rest ih =>
    intro acc h
    simp only [aggLoop]
    split
    · exact h
    · split
      · exact ih acc h
      · rename_i hne
        refine ih (acc ++ [u]) ?_
        intro hmem
        rcases List.mem_append.mp hmem with hx | hx
        · exact h hx
        · exact hne (Or.inl (List.mem_singleton.mp hx).symm)

/-- Below the cap, the aggregation walk collects every non-empty walked
URL. -/
theorem aggLoop_complete (maxTotal : Nat) :
    ∀ (us acc : List PyStr), (aggLoop maxTotal us acc).length < maxTotal →
      ∀ u ∈ us, u ≠ [] → u ∈ aggLoop maxTotal us acc := by
  intro us
  induction us with
  | nil => intro acc _ u hu; exact absurd hu (List.not_mem_nil u)
  | cons v rest ih =>
    intro acc hlen u hu hne
    by_cases hstop : maxTotal ≤ acc.length
    · simp only [aggLoop, if_pos hstop] at hlen ⊢
      omega
    · by_cases hskip : v = [] ∨ v ∈ acc
      · simp only [aggLoop, if_neg hstop, if_pos hskip] at hlen ⊢
        rcases List.mem_cons.mp hu with h | h
        · subst h
          rcases hskip with h0 | hmem
          · exact absurd h0 hne
          · exact aggLoop_mem_mono maxTotal rest acc u hmem
        · exact ih acc hlen u h hne
      · simp only [aggLoop, if_neg hstop, if_neg hskip] at hlen ⊢
        rcases List.mem_cons.mp hu with h | h
        · subst h
          exact aggLoop_mem_mono maxTotal rest (acc ++ [u]) u (by simp)
        · exact ih (acc ++ [v]) hlen u h hne

/-- C1: the orchestrator's aggregation walks outcome URLs in order, keeping
an order-preserving, duplicate-free selection of non-empty URLs capped at
`max_total_results`; below the cap nothing is dropped; every aggregated URL
comes from some outcome's results; and the per-outcome result lists are
unaffected by the aggregate cap. -/
theorem C1_orchestrator_aggregation :
  ∀ (searchCap : PyStr → Nat → Except PyStr (List SearchResult))
    (sub_queries : List PyStr) (per_query maxTotal maxTotal' : Nat),
    (MultiQuerySearchOrchestrator.run searchCap sub_queries per_query maxTotal).aggregated_urls.Nodup
    ∧ (MultiQuerySearchOrchestrator.run searchCap sub_queries per_query maxTotal).aggregated_urls.Sublist
        (outcomeUrls (MultiQuerySearchOrchestrator.run searchCap sub_queries per_query maxTotal).per_query_outcomes)
    ∧ (∀ u ∈ (MultiQuerySearchOrchestrator.run searchCap sub_queries per_query maxTotal).aggregated_urls,
        u ≠ [] ∧ ∃ o ∈ (MultiQuerySearchOrchestrator.run searchCap sub_queries per_query maxTotal).per_query_outcomes,
          ∃ r ∈ o.results, r.url = u)
    ∧ (MultiQuerySearchOrchestrator.run searchCap sub_queries per_query maxTotal).aggregated_urls.length ≤ maxTotal
    ∧ ((MultiQuerySearchOrchestrator.run searchCap sub_queries per_query maxTotal).aggregated_urls.length < maxTotal →
        ∀ u ∈ outcomeUrls (MultiQuerySearchOrchestrator.run searchCap sub_queries per_query maxTotal).per_query_outcomes,
          u ≠ [] → u ∈ (MultiQuerySearchOrchestrator.run searchCap sub_queries per_query maxTotal).aggregated_urls)
    ∧ (MultiQuerySearchOrchestrator.run searchCap sub_queries per_query maxTotal').per_query_outcomes
        = (MultiQuerySearchOrchestrator.run searchCap sub_queries per_query maxTotal).per_query_outcomes := by
  intro searchCap sub_queries per_query maxTotal maxTotal'
  by_cases hc : (sub_queries.map pyStrip).filter (fun q => q ≠ []) = []
  · have hrun : ∀ t, MultiQuerySearchOrchestrator.run searchCap sub_queries per_query t
        = ⟨[], [], []⟩ := by
      intro t
      simp only [MultiQuerySearchOrchestrator.run]
      rw [if_pos hc]
    rw [hrun maxTotal, hrun maxTotal']
    simp [outcomeUrls]
  · simp only [MultiQuerySearchOrchestrator.run, if_neg hc]
    refine ⟨?_, ?_, ?_, ?_, ?_, by trivial⟩
    · exact aggLoop_nodup maxTotal _ [] List.nodup_nil
    · obtain ⟨l, hl, hs⟩ := aggLoop_append_sublist maxTotal
        (outcomeUrls (((sub_queries.map pyStrip).filter (fun q => q ≠ [])).map
          (runSubQuery searchCap per_query))) []
      rw [hl]
      simpa using hs
    · intro u hu
      constructor
      · intro h0
        subst h0
        exact aggLoop_empty_not_mem maxTotal _ [] (List.not_mem_nil _) hu
      · rcases aggLoop_mem_subset maxTotal _ [] u hu with h | h
        · exact absurd h (List.not_mem_nil u)
        · obtain ⟨o, ho, hmem⟩ := List.mem_flatMap.mp h
          obtain ⟨r, hr, hru⟩ := List.mem_map.mp hmem
          exact ⟨o, ho, r, hr, hru⟩
    · exact aggLoop_length_le maxTotal _ [] (Nat.zero_le maxTotal)
    · intro hlen u hu hne
      exact aggLoop_complete maxTotal _ [] hlen u hu hne

/-- Witness for C1: the two-query fixture of the repository's orchestrator
test, with caps three and five. -/
theorem C1_orchestrator_aggregation_witness :
  (MultiQuerySearchOrchestrator.run testSearchCap
      ["query a".toList, "query b".toList] 2 3).aggregated_urls.Nodup
  ∧ ("https://example.com/b1".toList ∈
      (MultiQuerySearchOrchestrator.run testSearchCap
        ["query a".toList, "query b".toList] 2 5).aggregated_urls)
  ∧ (MultiQuerySearchOrchestrator.run testSearchCap
      ["query a".toList, "query b".toList] 2 5).per_query_outcomes
    = (MultiQuerySearchOrchestrator.run testSearchCap
      ["query a".toList, "query b".toList] 2 3).per_query_outcomes :=
  ⟨(C1_orchestrator_aggregation testSearchCap ["query a".toList, "query b".toList] 2 3 3).1,
   (C1_orchestrator_aggregation testSearchCap
      ["query a".toList, "query b".toList] 2 5 5).2.2.2.2.1 (by decide)
      "https://example.com/b1".toList (by decide) (by decide),
   (C1_orchestrator_aggregation testSearchCap
      ["query a".toList, "query b".toList] 2 3 5).2.2.2.2.2⟩

/-- Once the running total has reached the budget, the claim's walk leaves the
state untouched. -/
theorem claimCollate_foldl_stopped (maxChars : Nat) :
    ∀ (results : List ContentExtractionResult) (st : CollateState),
      maxChars ≤ st.total →
      results.foldl (claimCollateStep maxChars) st = st := by
  intro results
  induction results with
  | nil => intro st _; rfl
  | cons r rest ih =>
    intro st h
    simp only [List.foldl_cons, claimCollateStep, if_pos h]
    exact ih st h

/-- The claim's walk only ever appends to the document, truncation and
failure accumulators, so a run from a populated state is the run from the
empty state with the initial accumulators in front. -/
theorem claimCollate_foldl_frame (maxChars : Nat) :
    ∀ (results : List ContentExtractionResult) (docs0 : List CollatedDocument)
      (trunc0 : Nat) (fails0 : List PyStr) (total : Nat),
      results.foldl (claimCollateStep maxChars) ⟨docs0, total, trunc0, fails0⟩ =
        ⟨docs0 ++ (results.foldl (claimCollateStep maxChars) ⟨[], total, 0, []⟩).documents,
         (results.foldl (claimCollateStep maxChars) ⟨[], total, 0, []⟩).total,
         trunc0 + (results.foldl (claimCollateStep maxChars) ⟨[], total, 0, []⟩).truncated,
         fails0 ++ (results.foldl (claimCollateStep maxChars) ⟨[], total, 0, []⟩).failure_details⟩ := by
  intro results
  induction results with
  | nil => intro docs0 trunc0 fails0 total; simp
  | cons r rest ih =>
    intro docs0 trunc0 fails0 total
    by_cases h1 : maxChars ≤ total
    · have e1 : claimCollateStep maxChars ⟨docs0, total, trunc0, fails0⟩ r
          = ⟨docs0, total, trunc0, fails0⟩ := by
        simp [claimCollateStep, if_pos h1]
      have e0 : claimCollateStep maxChars ⟨[], total, 0, []⟩ r
          = ⟨[], total, 0, []⟩ := by
        simp [claimCollateStep, if_pos h1]
      simp only [List.foldl_cons, e1, e0]
      exact ih docs0 trunc0 fails0 total
    · by_cases h2 : r.success = false
      · have e1 : claimCollateStep maxChars ⟨docs0, total, trunc0, fails0⟩ r
            = ⟨docs0, total, trunc0, fails0 ++ [r.url ++ ": ".toList ++ r.error_message]⟩ := by
          simp [claimCollateStep, if_neg h1, h2]
        have e0 : claimCollateStep maxChars ⟨[], total, 0, []⟩ r
            = ⟨[], total, 0, [r.url ++ ": ".toList ++ r.error_message]⟩ := by
          simp [claimCollateStep, if_neg h1, h2]
        simp only [List.foldl_cons, e1, e0,
          ih docs0 trunc0 (fails0 ++ [r.url ++ ": ".toList ++ r.error_message]) total,
          ih ([] : List CollatedDocument) 0 [r.url ++ ": ".toList ++ r.error_message] total]
        simp [List.append_assoc]
      · by_cases h3 : budgetText maxChars total r = []
        · have e1 : claimCollateStep maxChars ⟨docs0, total, trunc0, fails0⟩ r
              = ⟨docs0, total, trunc0, fails0⟩ := by
            simp [claimCollateStep, if_neg h1, h2, h3]
          have e0 : claimCollateStep maxChars ⟨[], total, 0, []⟩ r
              = ⟨[], total, 0, []⟩ := by
            simp [claimCollateStep, if_neg h1, h2, h3]
          simp only [List.foldl_cons, e1, e0]
          exact ih docs0 trunc0 fails0 total
        · have e1 : claimCollateStep maxChars ⟨docs0, total, trunc0, fails0⟩ r
              = ⟨docs0 ++ [⟨r.url, r.title, budgetText maxChars total r, r.extraction_method⟩],
                  total + (budgetText maxChars total r).length,
                  trunc0 + (if maxChars - total < r.extracted_text.length then 1 else 0),
                  fails0⟩ := by
            simp [claimCollateStep, if_neg h1, h2, h3]
          have e0 : claimCollateStep maxChars ⟨[], total, 0, []⟩ r
              = ⟨[⟨r.url, r.title, budgetText maxChars total r, r.extraction_method⟩],
                  total + (budgetText maxChars total r).length,
                  (if maxChars - total < r.extracted_text.length then 1 else 0),
                  []⟩ := by
            simp [claimCollateStep, if_neg h1, h2, h3]
          simp only [List.foldl_cons, e1, e0,
            ih (docs0 ++ [⟨r.url, r.title, budgetText maxChars total r, r.extraction_method⟩])
              (trunc0 + (if maxChars - total < r.extracted_text.length then 1 else 0)) fails0
              (total + (budgetText maxChars total r).length),
            ih [⟨r.url, r.title, budgetText maxChars total r, r.extraction_method⟩]
              (if maxChars - total < r.extracted_text.length then 1 else 0) []
              (total + (budgetText maxChars total r).length)]
          simp [List.append_assoc, Nat.add_assoc]

/-- With a positive budget, the source's collation loop computes exactly the
documents, truncated count and failure details of the claim's walk. -/
theorem collateLoop_eq_claimWalk (maxChars : Nat) :
    ∀ (results : List ContentExtractionResult) (total : Nat), total < maxChars →
      collateLoop maxChars results total =
        ((results.foldl (claimCollateStep maxChars) ⟨[], total, 0, []⟩).documents,
         (results.foldl (claimCollateStep maxChars) ⟨[], total, 0, []⟩).truncated,
         (results.foldl (claimCollateStep maxChars) ⟨[], total, 0, []⟩).failure_details) := by
  intro results
  induction results with
  | nil => intro total _; simp [collateLoop]
  | cons r rest ih =>
    intro total htot
    have hnle : ¬ maxChars ≤ total := Nat.not_le.mpr htot
    by_cases h2 : r.success = false
    · have e0 : claimCollateStep maxChars ⟨[], total, 0, []⟩ r
          = ⟨[], total, 0, [r.url ++ ": ".toList ++ r.error_message]⟩ := by
        simp [claimCollateStep, if_neg hnle, h2]
      simp only [collateLoop, if_pos h2, List.foldl_cons, e0,
        claimCollate_foldl_frame maxChars rest ([] : List CollatedDocument) 0
          [r.url ++ ": ".toList ++ r.error_message] total,
        ih total htot]
      simp
    · have hbt : (if maxChars < total + r.extracted_text.length then
            r.extracted_text.take (maxChars - total) else r.extracted_text)
          = budgetText maxChars total r := by
        unfold budgetText
        by_cases hex : maxChars < total + r.extracted_text.length
        · rw [if_pos hex, if_pos (by omega)]
        · rw [if_neg hex, if_neg (by omega)]
      have hflag : (if maxChars < total + r.extracted_text.length then 1 else 0)
          = (if maxChars - total < r.extracted_text.length then 1 else 0) := by
        by_cases hex : maxChars < total + r.extracted_text.length
        · rw [if_pos hex, if_pos (by omega)]
        · rw [if_neg hex, if_neg (by omega)]
      by_cases h3 : budgetText maxChars total r = []
      · have e0 : claimCollateStep maxChars ⟨[], total, 0, []⟩ r = ⟨[], total, 0, []⟩ := by
          simp [claimCollateStep, if_neg hnle, h2, h3]
        simp only [collateLoop, if_neg h2, hbt, hflag, if_pos h3, List.foldl_cons, e0]
        exact ih total htot
      · by_cases h4 : maxChars ≤ total + (budgetText maxChars total r).length
        · have e0 : claimCollateStep maxChars ⟨[], total, 0, []⟩ r
              = ⟨[⟨r.url, r.title, budgetText maxChars total r, r.extraction_method⟩],
                  total + (budgetText maxChars total r).length,
                  (if maxChars - total < r.extracted_text.length then 1 else 0), []⟩ := by
            simp [claimCollateStep, if_neg hnle, h2, h3]
          have hstop := claimCollate_foldl_stopped maxChars rest
            ⟨[⟨r.url, r.title, budgetText maxChars total r, r.extraction_method⟩],
              total + (budgetText maxChars total r).length,
              (if maxChars - total < r.extracted_text.length then 1 else 0), []⟩ h4
          simp only [collateLoop, if_neg h2, hbt, hflag, if_neg h3, if_pos h4,
            List.foldl_cons, e0, hstop]
        · have htot' : total + (budgetText maxChars total r).length < maxChars :=
            Nat.not_le.mp h4
          have e0 : claimCollateStep maxChars ⟨[], total, 0, []⟩ r
              = ⟨[⟨r.url, r.title, budgetText maxChars total r, r.extraction_method⟩],
                  total + (budgetText maxChars total r).length,
                  (if maxChars - total < r.extracted_text.length then 1 else 0), []⟩ := by
            simp [claimCollateStep, if_neg hnle, h2, h3]
          simp only [collateLoop, if_neg h2, hbt, hflag, if_neg h3, if_neg h4,
            List.foldl_cons, e0,
            claimCollate_foldl_frame maxChars rest
              [⟨r.url, r.title, budgetText maxChars total r, r.extraction_method⟩]
              (if maxChars - total < r.extracted_text.length then 1 else 0) []
              (total + (budgetText maxChars total r).length),
            ih (total + (budgetText maxChars total r).length) htot']
          simp

/-- C4: the source's collation walk coincides with the claim's walk (order,
failure recording, truncation to exactly the remaining budget, skipping
empty texts, stopping at the budget) for every positive budget, and the
claim's ten-characters-into-budget-five example produces one document of
exactly five characters counted as truncated. -/
theorem C4_collate_walk_matches_claim :
  ∀ (results : List ContentExtractionResult) (maxChars : Nat),
    (0 < maxChars →
      collateLoop maxChars results 0 =
        ((claimCollateWalk maxChars results).documents,
         (claimCollateWalk maxChars results).truncated,
         (claimCollateWalk maxChars results).failure_details))
    ∧ ((ContentCollator.collate ["u1".toList]
          (extract_content_from_urls testExtractBody) 5).1.documents.map
            (fun d => d.text.length) = [5]
        ∧ (ContentCollator.collate ["u1".toList]
            (extract_content_from_urls testExtractBody) 5).1.summary.truncated = 1) := by
  intro results maxChars
  constructor
  · intro h
    exact collateLoop_eq_claimWalk maxChars results 0 h
  · exact ⟨by decide, by decide⟩

/-- Witness for C4: the budget-five walk over the ten-character fixture
document. -/
theorem C4_collate_walk_matches_claim_witness :
  collateLoop 5
      [⟨"u1".toList, "Title".toList, "xxxxxxxxxx".toList, "trafilatura".toList, true, []⟩] 0 =
    ((claimCollateWalk 5
        [⟨"u1".toList, "Title".toList, "xxxxxxxxxx".toList, "trafilatura".toList, true, []⟩]).documents,
     (claimCollateWalk 5
        [⟨"u1".toList, "Title".toList, "xxxxxxxxxx".toList, "trafilatura".toList, true, []⟩]).truncated,
     (claimCollateWalk 5
        [⟨"u1".toList, "Title".toList, "xxxxxxxxxx".toList, "trafilatura".toList, true, []⟩]).failure_details) :=
  (C4_collate_walk_matches_claim
    [⟨"u1".toList, "Title".toList, "xxxxxxxxxx".toList, "trafilatura".toList, true, []⟩] 5).1
    (by decide)

/-- Writing completed task values into the result table never changes its
size. -/
theorem foldl_set_length (v : Nat → Option ContentExtractionResult) :
    ∀ (σ : List Nat) (tbl : List (Option ContentExtractionResult)),
      (σ.foldl (fun t i => t.set i (v i)) tbl).length = tbl.length := by
  intro σ
  induction σ with
  | nil => intro tbl; rfl
  | cons i rest ih =>
    intro tbl
    simp only [List.foldl_cons]
    rw [ih]
    exact List.length_set tbl i (v i)

/-- A slot of the result table holds the task's value exactly when that task
appears in the completion schedule, and is untouched otherwise. -/
theorem foldl_set_get (v : Nat → Option ContentExtractionResult) :
    ∀ (σ : List Nat) (tbl : List (Option ContentExtractionResult)) (j : Nat)
      (hj : j < tbl.length),
      (σ.foldl (fun t i => t.set i (v i)) tbl).get
          ⟨j, by rw [foldl_set_length]; exact hj⟩ =
        if j ∈ σ then v j else tbl.get ⟨j, hj⟩ := by
  intro σ
  induction σ with
  | nil => intro tbl j hj; simp
  | cons i rest ih =>
    intro tbl j hj
    have hj' : j < (tbl.set i (v i)).length := by
      rw [List.length_set]
      exact hj
    simp only [List.foldl_cons]
    rw [ih (tbl.set i (v i)) j hj']
    by_cases hmem : j ∈ rest
    · simp [hmem]
    · by_cases hij : i = j
      · subst hij
      
        simp [hmem, List.getElem_set]
      · have hij2 : ¬ j = i := fun h => hij h.symm
        simp [hmem, hij, hij2, List.getElem_set, List.mem_cons]

/-- When the completion schedule is a permutation of the task indices, the
result table ends up holding every task's value at the task's own slot. -/
theorem scheduleTable_perm (outs : List ContentExtractionResult) (σ : List Nat)
    (h : σ.Perm (List.range outs.length)) :
    scheduleTable outs σ = outs.map some := by
  apply List.ext_get
  · simp [scheduleTable, foldl_set_length]
  · intro j h1 h2
    have hj : j < outs.length := by simpa using h2
    have hjr : j < (List.replicate outs.length
        (none : Option ContentExtractionResult)).length := by simpa using hj
    have hmem : j ∈ σ := by
      refine (h.mem_iff).2 ?_
      simpa using hj
    have hget := foldl_set_get (fun i => some (outs.getD i default)) σ
      (List.replicate outs.length none) j hjr
    rw [if_pos hmem] at hget
    have hL : (scheduleTable outs σ).get ⟨j, h1⟩ = some (outs.getD j default) := hget
    rw [hL]
    have hD := List.getD_eq_getElem outs default hj
    simp [List.get_map, hD, List.getElem?_eq_getElem hj]

/-- Under any permutation schedule the gathered list is the input-order list
of task values. -/
theorem gatherWithSchedule_perm (outs : List ContentExtractionResult) (σ : List Nat)
    (h : σ.Perm (List.range outs.length)) :
    gatherWithSchedule outs σ = outs := by
  rw [gatherWithSchedule, scheduleTable_perm outs σ h, List.map_map]
  simp [Function.comp_def]

/-- C9: with the concurrent completion order made explicit, two runs of the
batch extraction over the same per-URL outcomes produce identical result
lists — the input-order map — and hence identical collations, whatever the
two completion schedules were. -/
theorem C9_schedule_independent_merge :
  ∀ (body : PyStr → Except PyStr ContentExtractionResult) (urls : List PyStr)
    (maxChars : Nat) (σ₁ σ₂ : List Nat),
    σ₁.Perm (List.range urls.length) → σ₂.Perm (List.range urls.length) →
    extract_with_schedule body urls σ₁ = extract_with_schedule body urls σ₂
    ∧ extract_with_schedule body urls σ₁ = extract_content_from_urls body urls
    ∧ ContentCollator.collate urls (fun _ => extract_with_schedule body urls σ₁) maxChars
      = ContentCollator.collate urls (fun _ => extract_with_schedule body urls σ₂) maxChars := by
  intro body urls maxChars σ₁ σ₂ h1 h2
  have key : ∀ σ, σ.Perm (List.range urls.length) →
      extract_with_schedule body urls σ = extract_content_from_urls body urls := by
    intro σ hσ
    by_cases hu : urls = []
    · simp [extract_with_schedule, extract_content_from_urls, hu]
    · simp only [extract_with_schedule, extract_content_from_urls, if_neg hu]
      rw [gatherWithSchedule_perm (urls.map (extractSingle body)) σ (by simpa using hσ)]
      rw [List.map_map]
      rfl
  have e1 := key σ₁ h1
  have e2 := key σ₂ h2
  refine ⟨by rw [e1, e2], e1, by rw [e1, e2]⟩

/-- Witness for C9: two opposite completion orders over two URLs gather into
the same input-order result list. -/
theorem C9_schedule_independent_merge_witness :
  extract_with_schedule testExtractBody ["u1".toList, "u2".toList] [1, 0]
    = extract_content_from_urls testExtractBody ["u1".toList, "u2".toList] :=
  (C9_schedule_independent_merge testExtractBody ["u1".toList, "u2".toList] 5 [1, 0] [0, 1]
    (by decide) (by decide)).2.1

/-- C8: a blank query makes the endpoint fail with the HTTP 400 validation
error, and for any non-blank query — whatever every oracle does — the
endpoint returns a well-formed response, so the validation error is the only
error that ever propagates. -/
theorem C8_endpoint_validation_only_error :
  ∀ (cfg : LangChainConfig) (o : PipelineOracles) (query : PyStr),
    (pyStrip query = [] →
      endpoint_search cfg o query =
        Except.error ⟨400, "Search query cannot be empty".toList⟩)
    ∧ (pyStrip query ≠ [] → ∃ resp, endpoint_search cfg o query = Except.ok resp) := by
  intro cfg o query
  constructor
  · intro h
    simp [endpoint_search, h]
  · intro h
    obtain ⟨l, called, hok⟩ :=
      decompose_query_ok_of_ne o.configured cfg.max_sub_queries o.decompChain query h
    simp only [endpoint_search, if_neg h]
    rw [hok]
    exact ⟨_, rfl⟩

/-- Witness for C8: the blank query and the fixture query against fully
stubbed oracles. -/
theorem C8_endpoint_validation_only_error_witness :
  endpoint_search testConfig testOraclesOk "   ".toList
    = Except.error ⟨400, "Search query cannot be empty".toList⟩
  ∧ ∃ resp, endpoint_search testConfig testOraclesOk "query a".toList = Except.ok resp :=
  ⟨(C8_endpoint_validation_only_error testConfig testOraclesOk "   ".toList).1 (by decide),
   (C8_endpoint_validation_only_error testConfig testOraclesOk "query a".toList).2 (by decide)⟩

/-- C10: when the model is configured and documents exist, a synthesis
exception propagates out of `synthesize` itself; the `synthesize_answer`
wrapper converts it to `None`, so the endpoint's response carries neither an
answer object nor citations. -/
theorem C10_synthesis_exception_to_none :
  ∀ (cfg : LangChainConfig) (o : PipelineOracles) (query e : PyStr)
    (collation : ContentCollation),
    o.configured = true → o.synthChain = Except.error e →
    (collation.documents ≠ [] →
      AnswerSynthesizer.synthesize o.configured o.synthChain collation = ⟨Except.error e, true⟩
      ∧ synthesize_answer o.configured o.synthChain collation = none)
    ∧ (pyStrip query ≠ [] → (requestCollation cfg o query).documents ≠ [] →
        ∃ resp, endpoint_search cfg o query = Except.ok resp
          ∧ resp.llm_answer = none ∧ resp.citations = none) := by
  intro cfg o query e collation hconf hchain
  constructor
  · intro hdocs
    have hsynth : AnswerSynthesizer.synthesize o.configured o.synthChain collation
        = ⟨Except.error e, true⟩ := by
      rw [hconf, hchain]
      simp [AnswerSynthesizer.synthesize, hdocs]
    exact ⟨hsynth, by simp [synthesize_answer, hsynth]⟩
  · intro hq hdocs
    obtain ⟨l, called, hok⟩ :=
      decompose_query_ok_of_ne o.configured cfg.max_sub_queries o.decompChain query hq
    have hreq : requestCollation cfg o query
        = pipelineCollation cfg o (pipelineMultiSearch cfg o l) := by
      simp [requestCollation, hok]
    have hdocs2 : (pipelineCollation cfg o (pipelineMultiSearch cfg o l)).documents ≠ [] := by
      rw [← hreq]
      exact hdocs
    have hsynth : AnswerSynthesizer.synthesize o.configured o.synthChain
        (pipelineCollation cfg o (pipelineMultiSearch cfg o l)) = ⟨Except.error e, true⟩ := by
      rw [hconf, hchain]
      simp [AnswerSynthesizer.synthesize, hdocs2]
    have hwrap : synthesize_answer o.configured o.synthChain
        (pipelineCollation cfg o (pipelineMultiSearch cfg o l)) = none := by
      simp [synthesize_answer, hsynth]
    simp only [endpoint_search, if_neg hq]
    rw [hok]
    refine ⟨_, rfl, ?_, ?_⟩
    · simp [hwrap]
    · simp [hwrap]

/-- Witness for C10: the fixture request whose synthesis model call raises;
the response exists and carries no answer and no citations. -/
theorem C10_synthesis_exception_to_none_witness :
  synthesize_answer true (Except.error "boom".toList) testCollation = none
  ∧ ∃ resp, endpoint_search testConfig testOraclesSynthFail "query a".toList = Except.ok resp
      ∧ resp.llm_answer = none ∧ resp.citations = none :=
  ⟨((C10_synthesis_exception_to_none testConfig testOraclesSynthFail "query a".toList
      "boom".toList testCollation rfl rfl).1 (by decide)).2,
   (C10_synthesis_exception_to_none testConfig testOraclesSynthFail "query a".toList
      "boom".toList testCollation rfl rfl).2 (by decide) (by decide)⟩
